import Mathlib

/-!
Verification of the wastewater GIS backend (`app.py`).

The service is a thin FastAPI layer over a PostGIS store.  We embed the
request handlers as pure Lean functions: the data-access collaborator is
passed in as an `Except String`-valued argument (a query either returns rows
or fails with a message string), HTTP 500 responses become an explicit error
type, and the numeric geometry pipeline (degrees, interpolation, Open
Location Code encoding) is modelled with exact rational arithmetic.

Exact rationals are represented by the kernel-computable type `Frac`
(an integer numerator over a positive integer denominator, with explicit
arithmetic and no normalisation), so that every concrete run of the encoder
can be checked by `decide`.
-/

namespace Wastewater

/-- Exact rational number: numerator over denominator.  Every constructor and
operation below keeps the denominator positive, and no gcd normalisation is
performed, so all operations reduce inside the kernel.  This models the
real-number semantics of the Python float computations exactly. -/
structure Frac where
  num : Int
  den : Int
deriving DecidableEq, Repr

/-- Embed an integer as a fraction. -/
def Frac.ofInt (n : Int) : Frac := ⟨n, 1⟩

/-- Addition of fractions. -/
def fadd (a b : Frac) : Frac := ⟨a.num * b.den + b.num * a.den, a.den * b.den⟩

/-- Subtraction of fractions. -/
def fsub (a b : Frac) : Frac := ⟨a.num * b.den - b.num * a.den, a.den * b.den⟩

/-- Multiplication of fractions. -/
def fmul (a b : Frac) : Frac := ⟨a.num * b.num, a.den * b.den⟩

/-- Negation of a fraction. -/
def fneg (a : Frac) : Frac := ⟨-a.num, a.den⟩

/-- Division of fractions; the sign is moved to the numerator so the
denominator stays positive. -/
def fdiv (a b : Frac) : Frac :=
  if b.num < 0 then ⟨-(a.num * b.den), a.den * (-b.num)⟩
  else ⟨a.num * b.den, a.den * b.num⟩

/-- Semantic comparison `a ≤ b` by cross multiplication (denominators are
positive). -/
def fle (a b : Frac) : Bool := a.num * b.den ≤ b.num * a.den

/-- Semantic comparison `a < b` by cross multiplication. -/
def flt (a b : Frac) : Bool := a.num * b.den < b.num * a.den

/-- Semantic equality of fractions by cross multiplication. -/
def feq (a b : Frac) : Bool := a.num * b.den = b.num * a.den

/-- Python `min` on two fractions (returns the first argument on ties). -/
def fmin (a b : Frac) : Frac := if fle a b then a else b

/-- Python `max` on two fractions (returns the second argument on ties). -/
def fmax (a b : Frac) : Frac := if fle b a then a else b

/-- Mathematical floor of a fraction (denominator positive). -/
def ffloor (a : Frac) : Int := a.num.fdiv a.den

/-- Python `round(x)` to an integer: round half to even (banker's
rounding), as used by `round(x, 6)` in the reference encoder. -/
def roundHalfEven (a : Frac) : Int :=
  let f := ffloor a
  let twice := fsub (fmul (Frac.ofInt 2) a) (Frac.ofInt (2 * f))
  if flt twice (Frac.ofInt 1) then f
  else if flt (Frac.ofInt 1) twice then f + 1
  else if f % 2 = 0 then f else f + 1

/-- Python `round(x, 6)`: round to six decimal places, ties to even. -/
def pyRound6 (a : Frac) : Frac :=
  ⟨roundHalfEven (fmul a (Frac.ofInt 1000000)), 1000000⟩

/-- Python `int(x)`: truncation toward zero. -/
def pyInt (a : Frac) : Int :=
  if fle (Frac.ofInt 0) a then ffloor a else -(ffloor (fneg a))

/-- The Open Location Code base-20 digit alphabet. -/
def olcAlphabet : List Char := "23456789CFGHJMPQRVWX".toList

/-- The pair-digit loop of the OLC encoder: each of the five iterations
prepends one latitude digit and one longitude digit (base 20),
least-significant pair first, so the most significant pair ends up leftmost. -/
def pairLoop : Nat → Nat → Nat → List Char → List Char
  | 0, _, _, acc => acc
  | n + 1, latVal, lngVal, acc =>
      pairLoop n (latVal / 20) (lngVal / 20)
        (olcAlphabet.getD (latVal % 20) ' ' :: olcAlphabet.getD (lngVal % 20) ' ' :: acc)

/-- Python library `normalizeLongitude`: bring a longitude into
[-180, 180).  The library uses a while loop adding or subtracting 360;
this closed form agrees with the loop on every rational input. -/
def normalizeLongitude (lon : Frac) : Frac :=
  fsub lon (Frac.ofInt (360 * ffloor (fdiv (fadd lon (Frac.ofInt 180)) (Frac.ofInt 360))))

/-- Python library `clipLatitude`: `min(90, max(-90, latitude))`. -/
def clipLatitude (lat : Frac) : Frac :=
  fmin (Frac.ofInt 90) (fmax (Frac.ofInt (-90)) lat)

/-- Open Location Code `encode(latitude, longitude)` at the default code
length 10, as called by the backend via `olc.encode`.  Follows the reference
implementation: clip latitude, normalise longitude, nudge latitude 90 down by
one cell (1/8000 degree), scale to integers with `int(round(x, 6))` using the
final precisions 25000000 (lat) and 8192000 (lng), drop the five grid digits
(divide by 5^5 and 4^5; the scaled values are nonnegative after clipping, so
Nat division models Python floor division), emit five base-20 digit pairs and
insert the separator after the eighth character. -/
def encodeOLC (lat lon : Frac) : String :=
  let latC := clipLatitude lat
  let lonN := normalizeLongitude lon
  let latA := if feq latC (Frac.ofInt 90) then fsub latC ⟨1, 8000⟩ else latC
  let latVal0 := (pyInt (pyRound6 (fmul (fadd latA (Frac.ofInt 90)) (Frac.ofInt 25000000)))).toNat
  let lngVal0 := (pyInt (pyRound6 (fmul (fadd lonN (Frac.ofInt 180)) (Frac.ofInt 8192000)))).toNat
  let latVal := latVal0 / 3125
  let lngVal := lngVal0 / 1024
  let digits := pairLoop 5 latVal lngVal []
  String.mk ((digits.take 8 ++ '+' :: digits.drop 8).take 11)

/-- A geographic point as stored by shapely: `x` is the longitude and `y`
the latitude. -/
structure Pt where
  x : Frac
  y : Frac
deriving DecidableEq, Repr

/-- Helper `get_plus_code(geom)` from `app.py`: `None` maps to `None`,
otherwise `olc.encode(geom.y, geom.x)`. -/
def getPlusCode (geom : Option Pt) : Option String :=
  match geom with
  | none => none
  | some g => some (encodeOLC g.y g.x)

/-- A JSON-like attribute value carried by a database record. -/
inductive Val where
  | str (s : String)
  | num (q : Frac)
  | null
deriving DecidableEq, Repr

/-- An optional string rendered as a JSON value: `None` becomes `null`. -/
def optStrVal : Option String → Val
  | none => Val.null
  | some s => Val.str s

/-- Lookup of the first binding of a key in an association list (the shape of
a record's named columns, and of a Python dict restricted to its key set). -/
def lookupF {α : Type} (k : String) : List (String × α) → Option α
  | [] => none
  | (k₂, v) :: t => if k₂ = k then some v else lookupF k t

/-- Pandas column assignment `df[k] = v` seen on one record: if the column
exists (column names of a dataframe are unique) its value is replaced in
place, otherwise the column is appended at the end. -/
def setField : List (String × Val) → String → Val → List (String × Val)
  | [], k, v => [(k, v)]
  | (k₂, w) :: t, k, v =>
      if k₂ = k then (k, v) :: t else (k₂, w) :: setField t k v

/-- A plain database record: named columns in order. -/
abbrev Row := List (String × Val)

/-- A record of a GeoDataFrame with a point geometry column, as read by
`gpd.read_postgis(..., geom_col = "geom")` for manholes. -/
structure GeoRow where
  attrs : List (String × Val)
  geom : Option Pt
deriving DecidableEq, Repr

/-- One record of `gdf["plus_code"] = gdf["geom"].apply(get_plus_code)`:
attach the encoded location code under `plus_code`, keep everything else. -/
def assembleRow (r : GeoRow) : GeoRow :=
  ⟨setField r.attrs "plus_code" (optStrVal (getPlusCode r.geom)), r.geom⟩

/-- The result assembler for point-geometry endpoints (`get_manholes`,
`search_manholes`): decorate every record with its `plus_code`. -/
def assemble (rows : List GeoRow) : List GeoRow :=
  rows.map assembleRow

/-- An HTTP error response: `HTTPException(status_code, detail)`. -/
structure HErr where
  status : Nat
  detail : String
deriving DecidableEq, Repr

/-- Python `str.upper()` on the ASCII strings used as asset types. -/
def pyUpper (s : String) : String := String.mk (s.data.map Char.toUpper)

/-- Endpoint `GET /manholes`: run the query, attach plus codes, or convert
any raised error into `HTTPException(500, str(e))`. -/
def getManholes (q : Except String (List GeoRow)) : Except HErr (List GeoRow) :=
  match q with
  | .error e => .error ⟨500, e⟩
  | .ok rows => .ok (assemble rows)

/-- Endpoint `GET /manholes/search`: the data-access collaborator is called
with the WKT point built from `Point(lon, lat)` and the radius, and the
resulting records are assembled exactly as in `get_manholes`. -/
def searchManholes (db : Frac × Frac × Frac → Except String (List GeoRow))
    (lat lon radius : Frac) : Except HErr (List GeoRow) :=
  match db (lon, lat, radius) with
  | .error e => .error ⟨500, e⟩
  | .ok rows => .ok (assemble rows)

/-- Endpoint `GET /maintenance/{asset_type}/{asset_id}`: the query runs with
`asset_type.upper()` and the raw `asset_id`; rows pass through unchanged. -/
def getMaintenance (db : String × String → Except String (List Row))
    (asset_type asset_id : String) : Except HErr (List Row) :=
  match db (pyUpper asset_type, asset_id) with
  | .error e => .error ⟨500, e⟩
  | .ok rows => .ok rows

/-- A line geometry: the ordered vertices of a LineString. -/
abbrev Line := List Pt

/-- The point at parameter `t ∈ [0,1]` along the straight segment from `p`
to `q`. -/
def pointAlong (p q : Pt) (t : Frac) : Pt :=
  ⟨fadd p.x (fmul t (fsub q.x p.x)), fadd p.y (fmul t (fsub q.y p.y))⟩

/-- Total path length of a line under a given segment-length function (the
length function stands for the float Euclidean norm computed by GEOS). -/
def totalLen (len : Pt → Pt → Frac) : Line → Frac
  | p :: q :: rest => fadd (len p q) (totalLen len (q :: rest))
  | _ => Frac.ofInt 0

/-- GEOS walk underlying `line.interpolate(d)`: consume segments until the
remaining distance fits inside one, then interpolate within it; running off
the end yields the last vertex. -/
def walk (len : Pt → Pt → Frac) (d : Frac) : Line → Pt
  | [] => ⟨Frac.ofInt 0, Frac.ofInt 0⟩
  | [p] => p
  | p :: q :: rest =>
      let L := len p q
      if fle d L then
        if feq L (Frac.ofInt 0) then p else pointAlong p q (fdiv d L)
      else walk len (fsub d L) (q :: rest)

/-- Shapely `line.interpolate(f, normalized = True)`: the point at fraction
`f` of the total path length. -/
def interpolateNorm (len : Pt → Pt → Frac) (l : Line) (f : Frac) : Pt :=
  walk len (fmul f (totalLen len l)) l

/-- The consecutive vertex pairs (segments) of a line. -/
def segPairs (l : Line) : List (Pt × Pt) := l.zip l.tail

/-- Square of a fraction. -/
def sq (a : Frac) : Frac := fmul a a

/-- A segment-length function is Euclidean on a given line when, on each of
the line's segments, it is nonnegative and its square is the squared
Euclidean distance.  This pins the abstract length parameter to the real
geometric length wherever it is actually used. -/
def IsEuclidLen (len : Pt → Pt → Frac) (l : Line) : Prop :=
  ∀ pq ∈ segPairs l,
    fle (Frac.ofInt 0) (len pq.1 pq.2) = true ∧
    feq (sq (len pq.1 pq.2))
      (fadd (sq (fsub pq.2.x pq.1.x)) (sq (fsub pq.2.y pq.1.y))) = true

/-- A record of the pipeline GeoDataFrame: the geometry column holds a line
(or is null). -/
structure PipeRow where
  attrs : List (String × Val)
  geom : Option Line
deriving DecidableEq, Repr

/-- Python's `str(e)` for the `AttributeError` raised by
`None.interpolate(...)` (quote characters written as hex escapes). -/
def attrErrMsg : String :=
  "\x27NoneType\x27 object has no attribute \x27interpolate\x27"

/-- One evaluation of the `get_pipes` lambda
`lambda line: get_plus_code(line.interpolate(0.5, normalized=True))`: a null
geometry raises `AttributeError` (the attribute access happens before any
null check), a line is reduced to its path-length midpoint and encoded. -/
def pipeRowCode (len : Pt → Pt → Frac) (r : PipeRow) : Except String (Option String) :=
  match r.geom with
  | none => .error attrErrMsg
  | some l => .ok (getPlusCode (some (interpolateNorm len l ⟨1, 2⟩)))

/-- Effectful map over a list, stopping at the first error — the behaviour
of `Series.apply` when the applied function raises. -/
def mapE {α β : Type} (f : α → Except String β) : List α → Except String (List β)
  | [] => .ok []
  | a :: as =>
      match f a with
      | .error e => .error e
      | .ok b =>
          match mapE f as with
          | .error e => .error e
          | .ok bs => .ok (b :: bs)

/-- One pipeline record with its midpoint plus code attached (or the raised
error). -/
def pipeAssembleRow (len : Pt → Pt → Frac) (r : PipeRow) : Except String PipeRow :=
  match pipeRowCode len r with
  | .error e => .error e
  | .ok c => .ok ⟨setField r.attrs "plus_code" (optStrVal c), r.geom⟩

/-- Endpoint `GET /pipes`: query, attach midpoint plus codes, and convert
any raised error (from the query or from the per-record lambda) into
`HTTPException(500, str(e))`. -/
def getPipes (len : Pt → Pt → Frac) (q : Except String (List PipeRow)) :
    Except HErr (List PipeRow) :=
  match q with
  | .error e => .error ⟨500, e⟩
  | .ok rows =>
      match mapE (pipeAssembleRow len) rows with
      | .error e => .error ⟨500, e⟩
      | .ok rows₂ => .ok rows₂

/-- A stored favorite: `(user_id, asset_type, asset_id)`. -/
abbrev FavTriple := String × String × String

/-- The favorites table, with a uniqueness constraint on the full triple. -/
abbrev FavStore := List FavTriple

/-- The SQL `INSERT ... ON CONFLICT DO NOTHING` on the favorites table: a
conflicting (already present) triple is silently skipped. -/
def favInsert (s : FavStore) (t : FavTriple) : FavStore :=
  if t ∈ s then s else s ++ [t]

/-- The data-access collaborator executing the favorites insert against a
concrete store: it always succeeds and returns the updated store. -/
def favExec (s : FavStore) : FavTriple → Except String FavStore :=
  fun t => .ok (favInsert s t)

/-- Endpoint `POST /favorites` (response part): run the insert with the
uppercased asset type and report `{"status": "success"}`, or a 500. -/
def addFavorite (db : FavTriple → Except String FavStore)
    (user_id asset_type asset_id : String) : Except HErr (List (String × String)) :=
  match db (user_id, pyUpper asset_type, asset_id) with
  | .error e => .error ⟨500, e⟩
  | .ok _ => .ok [("status", "success")]

/-- Endpoint `POST /favorites` (state part): the favorites table after the
insert statement executes. -/
def addFavoriteStore (s : FavStore) (user_id asset_type asset_id : String) : FavStore :=
  favInsert s (user_id, pyUpper asset_type, asset_id)

/-- Endpoint `GET /favorites/{user_id}`: rows pass through unchanged. -/
def getFavorites (db : String → Except String (List Row)) (user_id : String) :
    Except HErr (List Row) :=
  match db user_id with
  | .error e => .error ⟨500, e⟩
  | .ok rows => .ok rows

/-- Endpoint `GET /dashboard/stats`: rows pass through unchanged. -/
def dashboardStats (q : Except String (List Row)) : Except HErr (List Row) :=
  match q with
  | .error e => .error ⟨500, e⟩
  | .ok rows => .ok rows

/-- Endpoint `POST /assets/{asset_id}/upload`: write the file under
`uploads/{asset_id}_{filename}`, record the path in the manhole row, return
the path; any raised error becomes a 500. -/
def uploadImage (fileWrite : String → Except String Unit)
    (db : String → Except String Unit) (asset_id filename : String) :
    Except HErr (List (String × String)) :=
  let filepath := "uploads/" ++ asset_id ++ "_" ++ filename
  match fileWrite filepath with
  | .error e => .error ⟨500, e⟩
  | .ok _ =>
      match db filepath with
      | .error e => .error ⟨500, e⟩
      | .ok _ => .ok [("status", "success"), ("file_path", filepath)]

/-- A row of the `waste_water_manhole` table with the columns touched by
`update_manhole` explicit and all remaining columns opaque. -/
structure Manhole where
  gid : Int
  status : Option String
  notes : Option String
  rest : List (String × Val)
deriving DecidableEq, Repr

/-- Python `data.get(k)` on the request body: the value if the key is
present, `None` otherwise. -/
def pyGet (body : List (String × String)) (k : String) : Option String :=
  lookupF k body

/-- The SQL `UPDATE waste_water_manhole SET status = :status, notes = :notes
WHERE gid = :asset_id`: every matching row gets both columns overwritten
(a `None` parameter stores SQL `NULL`), every other row is untouched. -/
def sqlUpdateManhole (tbl : List Manhole) (status notes : Option String)
    (asset_id : Int) : List Manhole :=
  tbl.map (fun r =>
    if r.gid = asset_id then { r with status := status, notes := notes } else r)

/-- Endpoint `PUT /manholes/{asset_id}` (response part): execute the update
with parameters `data.get("status")`, `data.get("notes")` and return
`{"status": "success"}` whether or not any row matched; a raised error
becomes a 500. -/
def updateManhole (db : Option String × Option String × Int → Except String Unit)
    (body : List (String × String)) (asset_id : Int) :
    Except HErr (List (String × String)) :=
  match db (pyGet body "status", pyGet body "notes", asset_id) with
  | .error e => .error ⟨500, e⟩
  | .ok _ => .ok [("status", "success")]

/-- Endpoint `PUT /manholes/{asset_id}` (state part): the table after the
update statement executes. -/
def updateManholeStore (tbl : List Manhole) (body : List (String × String))
    (asset_id : Int) : List Manhole :=
  sqlUpdateManhole tbl (pyGet body "status") (pyGet body "notes") asset_id

/-- A value of the aggregate response: a list of rows for a section that
succeeded, or the textual error description for one that failed. -/
inductive AggVal where
  | rows (rs : List Row)
  | errTxt (msg : String)
deriving DecidableEq, Repr

/-- Modelled from the spec: one section of the Aggregate Endpoint
Orchestrator (the aggregate endpoint is not part of this source variant).
A successful fetch is stored under the section's name, a failure is stored
as text under `<section>_error` and the section's data key is absent. -/
def sectionEntry (name : String) (outcome : Except String (List Row)) : String × AggVal :=
  match outcome with
  | .ok d => (name, AggVal.rows d)
  | .error e => (name ++ "_error", AggVal.errTxt e)

/-- Modelled from the spec: the Aggregate Endpoint Orchestrator
`aggregate(user_id?)` (absent from this source variant).  Each of the four
sections {manholes, pipes, favorites, dashboard_stats} is attempted
independently against its own query outcome; the favorites section is
skipped (empty list, no query) when no user identifier is supplied; the
call itself never fails. -/
def aggregate (userId : Option String)
    (manholesQ pipesQ favoritesQ statsQ : Except String (List Row)) :
    List (String × AggVal) :=
  [ sectionEntry "manholes" manholesQ,
    sectionEntry "pipes" pipesQ,
    sectionEntry "favorites"
      (match userId with | none => .ok [] | some _ => favoritesQ),
    sectionEntry "dashboard_stats" statsQ ]

/-- Stated from the spec's contrasted alternative, for comparison only: the
plain average of the line's two endpoints (what the encoder is claimed NOT
to be applied to). -/
def endpointAvg : Line → Pt
  | [] => ⟨Frac.ofInt 0, Frac.ofInt 0⟩
  | p :: t =>
      ⟨fmul (fadd p.x ((t.getLastD p)).x) ⟨1, 2⟩,
       fmul (fadd p.y ((t.getLastD p)).y) ⟨1, 2⟩⟩

/-- A trivial length function, used where a run never reaches the length
computation (the null-geometry error fires first). -/
def trivLen : Pt → Pt → Frac := fun _ _ => Frac.ofInt 0

/-- A three-vertex polyline with axis-parallel segments: (0,0) → (0,1) →
(10,1).  Its segment lengths (1 and 10) are exact rationals. -/
def bentLine : Line :=
  [⟨Frac.ofInt 0, Frac.ofInt 0⟩, ⟨Frac.ofInt 0, Frac.ofInt 1⟩,
   ⟨Frac.ofInt 10, Frac.ofInt 1⟩]

/-- Coordinate-difference sums: on axis-parallel segments this is exactly
the Euclidean segment length, which `IsEuclidLen` verifies for `bentLine`. -/
def lenL1 : Pt → Pt → Frac :=
  fun p q => fadd (fsub q.x p.x) (fsub q.y p.y)

/-- The manhole point of the spec's scenario: `Point(151.2, -33.8)`
(x = longitude, y = latitude). -/
def samplePt : Pt := ⟨⟨756, 5⟩, ⟨-169, 5⟩⟩

/-- A concrete manhole record `{gid: 1, geom: Point(151.2, -33.8),
status: "OK"}`. -/
def sampleGeoRow : GeoRow :=
  ⟨[("gid", Val.num (Frac.ofInt 1)), ("status", Val.str "OK")], some samplePt⟩

/-- A concrete pipeline record with a null geometry. -/
def nullPipeRow : PipeRow := ⟨[("gid", Val.num (Frac.ofInt 7))], none⟩

/-- A concrete pipeline record carrying `bentLine`. -/
def bentPipeRow : PipeRow := ⟨[("gid", Val.num (Frac.ofInt 7))], some bentLine⟩

/-! Helper lemmas. -/

theorem lookupF_setField_self (fs : List (String × Val)) (k : String) (v : Val) :
    lookupF k (setField fs k v) = some v := by
  induction fs with
  | nil => simp [setField, lookupF]
  | cons p t ih =>
      obtain ⟨k₂, w⟩ := p
      by_cases h : k₂ = k
      · simp [setField, h, lookupF]
      · simp [setField, h, lookupF, ih]

theorem lookupF_setField_ne (fs : List (String × Val)) (k k₂ : String) (v : Val)
    (h : k₂ ≠ k) : lookupF k₂ (setField fs k v) = lookupF k₂ fs := by
  induction fs with
  | nil =>
      simp only [setField, lookupF]
      rw [if_neg (fun hh : k = k₂ => h hh.symm)]
  | cons p t ih =>
      obtain ⟨k₃, w⟩ := p
      by_cases h₃ : k₃ = k
      · subst h₃
        simp only [setField, if_pos rfl, lookupF]
        rw [if_neg (fun hh : k₃ = k₂ => h hh.symm),
          if_neg (fun hh : k₃ = k₂ => h hh.symm)]
      · simp [setField, h₃, lookupF, ih]

theorem lookupF_none_of_not_mem {α : Type} (fs : List (String × α)) (k : String)
    (h : ∀ p ∈ fs, p.1 ≠ k) : lookupF k fs = none := by
  induction fs with
  | nil => rfl
  | cons p t ih =>
      obtain ⟨k₂, w⟩ := p
      have hk : k₂ ≠ k := h (k₂, w) (List.mem_cons_self _ _)
      simp only [lookupF, if_neg hk]
      exact ih (fun p hp => h p (List.mem_cons_of_mem _ hp))

theorem setField_eq_append (fs : List (String × Val)) (k : String) (v : Val)
    (h : ∀ p ∈ fs, p.1 ≠ k) : setField fs k v = fs ++ [(k, v)] := by
  induction fs with
  | nil => rfl
  | cons p t ih =>
      obtain ⟨k₂, w⟩ := p
      have hk : k₂ ≠ k := h (k₂, w) (List.mem_cons_self _ _)
      simp only [setField, if_neg hk, List.cons_append, List.cons.injEq, true_and]
      exact ih (fun p hp => h p (List.mem_cons_of_mem _ hp))

theorem char_toUpper_toNat_eq (m : Nat) (h : m < 55296) : (Char.ofNat m).toNat = m := by
  have hv : m.isValidChar := Or.inl h
  simp [Char.ofNat, hv, Char.ofNatAux, Char.toNat, UInt32.toNat, UInt32.ofNat']

theorem char_toUpper_idem (c : Char) : c.toUpper.toUpper = c.toUpper := by
  unfold Char.toUpper
  by_cases h : c.toNat ≥ 97 ∧ c.toNat ≤ 122
  · rw [if_pos h]
    have h₁ : (Char.ofNat (c.toNat - 32)).toNat = c.toNat - 32 :=
      char_toUpper_toNat_eq _ (by omega)
    have h₂ : ¬((Char.ofNat (c.toNat - 32)).toNat ≥ 97 ∧
        (Char.ofNat (c.toNat - 32)).toNat ≤ 122) := by
      rw [h₁]; omega
    rw [if_neg h₂]
  · rw [if_neg h, if_neg h]

theorem pyUpper_idem (s : String) : pyUpper (pyUpper s) = pyUpper s := by
  unfold pyUpper
  show String.mk ((s.data.map Char.toUpper).map Char.toUpper) = _
  rw [List.map_map]
  exact congrArg String.mk
    (List.map_congr_left (fun c _ => char_toUpper_idem c))

theorem mem_favInsert (s : FavStore) (t : FavTriple) : t ∈ favInsert s t := by
  unfold favInsert
  by_cases h : t ∈ s
  · simp [h]
  · simp [h]

theorem favInsert_of_mem {s : FavStore} {t : FavTriple} (h : t ∈ s) :
    favInsert s t = s := by
  simp [favInsert, h]

theorem favInsert_idem (s : FavStore) (t : FavTriple) :
    favInsert (favInsert s t) t = favInsert s t :=
  favInsert_of_mem (mem_favInsert s t)

theorem mapE_ok_length {α β : Type} {f : α → Except String β} :
    ∀ {as : List α} {bs : List β}, mapE f as = Except.ok bs → bs.length = as.length := by
  intro as
  induction as with
  | nil =>
      intro bs h
      simp only [mapE, Except.ok.injEq] at h
      subst h; rfl
  | cons a t ih =>
      intro bs h
      simp only [mapE] at h
      cases hfa : f a with
      | error e => rw [hfa] at h; cases h
      | ok b =>
          rw [hfa] at h
          cases hrec : mapE f t with
          | error e => rw [hrec] at h; cases h
          | ok bs₂ =>
              rw [hrec] at h
              cases h
              simp [ih hrec]

theorem mapE_ok_get {α β : Type} {f : α → Except String β} :
    ∀ {as : List α} {bs : List β}, mapE f as = Except.ok bs →
      ∀ i (ha : i < as.length) (hb : i < bs.length),
        f as[i] = Except.ok bs[i] := by
  intro as
  induction as with
  | nil => intro bs h i ha hb; cases ha
  | cons a t ih =>
      intro bs h i ha hb
      simp only [mapE] at h
      cases hfa : f a with
      | error e => rw [hfa] at h; cases h
      | ok b =>
          rw [hfa] at h
          cases hrec : mapE f t with
          | error e => rw [hrec] at h; cases h
          | ok bs₂ =>
              rw [hrec] at h
              cases h
              cases i with
              | zero => simpa using hfa
              | succ j =>
                  have ha₂ : j < t.length := by simpa using ha
                  have hb₂ : j < bs₂.length := by
                    have := mapE_ok_length hrec
                    omega
                  simpa using ih hrec j ha₂ hb₂

theorem mapE_ok_mem {α β : Type} {f : α → Except String β} :
    ∀ {as : List α} {bs : List β}, mapE f as = Except.ok bs →
      ∀ b ∈ bs, ∃ a ∈ as, f a = Except.ok b := by
  intro as
  induction as with
  | nil =>
      intro bs h b hb
      simp only [mapE, Except.ok.injEq] at h
      subst h; cases hb
  | cons a t ih =>
      intro bs h b hb
      simp only [mapE] at h
      cases hfa : f a with
      | error e => rw [hfa] at h; cases h
      | ok b₂ =>
          rw [hfa] at h
          cases hrec : mapE f t with
          | error e => rw [hrec] at h; cases h
          | ok bs₂ =>
              rw [hrec] at h
              cases h
              rcases List.mem_cons.mp hb with rfl | hmem
              · exact ⟨a, List.mem_cons_self _ _, hfa⟩
              · obtain ⟨a₂, ha₂, hfa₂⟩ := ih hrec b hmem
                exact ⟨a₂, List.mem_cons_of_mem _ ha₂, hfa₂⟩

theorem mapE_error_first {α β : Type} {f : α → Except String β} {msg : String}
    (hall : ∀ a, (∃ b, f a = Except.ok b) ∨ f a = Except.error msg) :
    ∀ {as : List α}, (∃ a ∈ as, f a = Except.error msg) →
      mapE f as = Except.error msg := by
  intro as
  induction as with
  | nil => rintro ⟨a, ha, _⟩; cases ha
  | cons a t ih =>
      rintro ⟨a₂, ha₂, herr⟩
      simp only [mapE]
      rcases hall a with ⟨b, hb⟩ | hb
      · rw [hb]
        rcases List.mem_cons.mp ha₂ with rfl | hmem
        · rw [hb] at herr; cases herr
        · rw [ih ⟨a₂, hmem, herr⟩]
      · rw [hb]

theorem pipeAssembleRow_ok_iff {len : Pt → Pt → Frac} {r r₂ : PipeRow} :
    pipeAssembleRow len r = Except.ok r₂ ↔
      ∃ l, r.geom = some l ∧
        r₂ = ⟨setField r.attrs "plus_code"
            (Val.str (encodeOLC (interpolateNorm len l ⟨1, 2⟩).y
              (interpolateNorm len l ⟨1, 2⟩).x)), some l⟩ := by
  obtain ⟨attrs, geom⟩ := r
  cases geom with
  | none => simp [pipeAssembleRow, pipeRowCode]
  | some l =>
      simp only [pipeAssembleRow, pipeRowCode, getPlusCode, optStrVal, Except.ok.injEq,
        Option.some.injEq]
      constructor
      · intro h; exact ⟨l, rfl, h.symm⟩
      · rintro ⟨l₂, hl, hr⟩
        cases hl
        exact hr.symm

theorem pipeAssembleRow_ok_or_err (len : Pt → Pt → Frac) (r : PipeRow) :
    (∃ b, pipeAssembleRow len r = Except.ok b) ∨
      pipeAssembleRow len r = Except.error attrErrMsg := by
  obtain ⟨attrs, geom⟩ := r
  cases geom with
  | none => right; rfl
  | some l => left; exact ⟨_, rfl⟩

/-- Sanity anchor: the embedded encoder reproduces the Open Location Code
library's documented reference encoding of (47.365590, 8.524997), and the
code of the spec's manhole scenario point (-33.8, 151.2). -/
theorem encodeOLC_reference_vectors :
    encodeOLC ⟨4736559, 100000⟩ ⟨8524997, 1000000⟩ = "8FVC9G8F+6X" ∧
    encodeOLC ⟨-169, 5⟩ ⟨756, 5⟩ = "4RRH6622+22" := by
  exact ⟨by decide, by decide⟩

/-! Claim theorems. -/

/-- C1 counterexample: `get_pipes` applied to a single record whose `geom`
is null does not attach an absent plus code — it fails with
`HTTPException(500, str(AttributeError))`, because the lambda calls
`.interpolate` on the null geometry before `get_plus_code` ever runs.  This
refutes the claim that encode applied to a null geometry yields none rather
than an error for pipeline (line) geometries. -/
theorem C1_null_pipe_counterexample :
    getPipes trivLen (Except.ok [nullPipeRow]) =
      Except.error ⟨500, attrErrMsg⟩ := rfl

/-- C1 (amended): `get_plus_code(None) = None`; for every record returned by
`get_manholes` and `search_manholes` the derived `plus_code` is a string if
and only if the record's `geom` is non-null; for `get_pipes` every record of
a successful response has a string `plus_code` and a non-null `geom`, but a
null line geometry is not mapped to an absent code — it makes the whole
endpoint fail with `HTTPException(500, str(AttributeError))`. -/
theorem C1_plus_code_presence :
    getPlusCode none = none ∧
    (∀ (q : Except String (List GeoRow)) (rows : List GeoRow),
      getManholes q = Except.ok rows → ∀ r ∈ rows,
        ((∃ c, lookupF "plus_code" r.attrs = some (Val.str c)) ↔ r.geom ≠ none)) ∧
    (∀ (db : Frac × Frac × Frac → Except String (List GeoRow))
      (lat lon radius : Frac) (rows : List GeoRow),
      searchManholes db lat lon radius = Except.ok rows → ∀ r ∈ rows,
        ((∃ c, lookupF "plus_code" r.attrs = some (Val.str c)) ↔ r.geom ≠ none)) ∧
    (∀ (len : Pt → Pt → Frac) (q : Except String (List PipeRow)) (rows : List PipeRow),
      getPipes len q = Except.ok rows → ∀ r ∈ rows,
        (∃ c, lookupF "plus_code" r.attrs = some (Val.str c)) ∧ r.geom ≠ none) ∧
    (∀ (len : Pt → Pt → Frac) (rows : List PipeRow),
      (∃ r ∈ rows, r.geom = none) →
        getPipes len (Except.ok rows) = Except.error ⟨500, attrErrMsg⟩) := by
  refine ⟨rfl, ?_, ?_, ?_, ?_⟩
  · intro q rows h r hr
    cases q with
    | error e => simp [getManholes] at h
    | ok rows₀ =>
        simp only [getManholes, Except.ok.injEq] at h
        subst h
        obtain ⟨r₀, hr₀, rfl⟩ := List.mem_map.mp hr
        obtain ⟨attrs₀, geom₀⟩ := r₀
        cases geom₀ <;>
          simp [assembleRow, lookupF_setField_self, getPlusCode, optStrVal]
  · intro db lat lon radius rows h r hr
    cases hdb : db (lon, lat, radius) with
    | error e => simp [searchManholes, hdb] at h
    | ok rows₀ =>
        simp only [searchManholes, hdb, Except.ok.injEq] at h
        subst h
        obtain ⟨r₀, hr₀, rfl⟩ := List.mem_map.mp hr
        obtain ⟨attrs₀, geom₀⟩ := r₀
        cases geom₀ <;>
          simp [assembleRow, lookupF_setField_self, getPlusCode, optStrVal]
  · intro len q rows h r hr
    cases q with
    | error e => simp [getPipes] at h
    | ok rows₀ =>
        cases hm : mapE (pipeAssembleRow len) rows₀ with
        | error e => simp [getPipes, hm] at h
        | ok rows₂ =>
            simp only [getPipes, hm, Except.ok.injEq] at h
            subst h
            obtain ⟨r₀, hr₀, hok⟩ := mapE_ok_mem hm r hr
            obtain ⟨l, hl, rfl⟩ := pipeAssembleRow_ok_iff.mp hok
            exact ⟨⟨_, lookupF_setField_self _ _ _⟩, by simp⟩
  · intro len rows hex
    have hmap : mapE (pipeAssembleRow len) rows = Except.error attrErrMsg := by
      apply mapE_error_first (pipeAssembleRow_ok_or_err len)
      obtain ⟨r, hr, hg⟩ := hex
      refine ⟨r, hr, ?_⟩
      obtain ⟨attrs₀, geom₀⟩ := r
      cases hg
      rfl
    simp [getPipes, hmap]

/-- Witness for C1 (amended): the manhole scenario record
`{gid: 1, geom: Point(151.2, -33.8), status: "OK"}` gets a string plus
code (its geometry is non-null), and the concrete null-geometry pipe run
fails with the 500 error. -/
theorem C1_plus_code_presence_witness :
    ((∃ c, lookupF "plus_code" (assembleRow sampleGeoRow).attrs = some (Val.str c)) ↔
      (assembleRow sampleGeoRow).geom ≠ none) ∧
    getPipes trivLen (Except.ok [nullPipeRow]) = Except.error ⟨500, attrErrMsg⟩ := by
  constructor
  · exact C1_plus_code_presence.2.1 (Except.ok [sampleGeoRow]) (assemble [sampleGeoRow])
      rfl (assembleRow sampleGeoRow) (by simp [assemble])
  · exact C1_plus_code_presence.2.2.2.2 trivLen [nullPipeRow]
      ⟨nullPipeRow, by simp, rfl⟩

/-- C2: on a successful `get_pipes` response, every record's `plus_code` is
the encoding of the point at normalized fraction 0.5 of the line's path
length (shapely `interpolate(0.5, normalized=True)`); and that point is not
in general the average of the line's two endpoints — on the bent line
(0,0)→(0,1)→(10,1), whose segment lengths the length function provably
matches (`IsEuclidLen`), the two candidate encodings differ. -/
theorem C2_pipes_interpolated_midpoint :
    (∀ (len : Pt → Pt → Frac) (rows rows₂ : List PipeRow),
      getPipes len (Except.ok rows) = Except.ok rows₂ →
      rows₂.length = rows.length ∧
      ∀ (i : Nat) (h : i < rows.length) (h₂ : i < rows₂.length),
        ∃ l, rows[i].geom = some l ∧
          lookupF "plus_code" rows₂[i].attrs =
            some (Val.str (encodeOLC (interpolateNorm len l ⟨1, 2⟩).y
              (interpolateNorm len l ⟨1, 2⟩).x))) ∧
    (IsEuclidLen lenL1 bentLine ∧
      encodeOLC (interpolateNorm lenL1 bentLine ⟨1, 2⟩).y
          (interpolateNorm lenL1 bentLine ⟨1, 2⟩).x ≠
        encodeOLC (endpointAvg bentLine).y (endpointAvg bentLine).x) := by
  constructor
  · intro len rows rows₂ h
    cases hm : mapE (pipeAssembleRow len) rows with
    | error e => simp [getPipes, hm] at h
    | ok rows₃ =>
        simp only [getPipes, hm, Except.ok.injEq] at h
        subst h
        refine ⟨mapE_ok_length hm, ?_⟩
        intro i h h₂
        obtain ⟨l, hl, hr⟩ := pipeAssembleRow_ok_iff.mp (mapE_ok_get hm i h h₂)
        refine ⟨l, hl, ?_⟩
        rw [hr]
        exact lookupF_setField_self _ _ _
  · exact ⟨by unfold IsEuclidLen; decide, by decide⟩

/-- Witness for C2: on the concrete bent-line pipe record, `get_pipes`
succeeds and the attached code is the encoding of the path-length midpoint
(4.5, 1), namely "6FH62G22+22" — not the encoding of the endpoint average
(5, 0.5), which is "6FG7G222+22". -/
theorem C2_pipes_interpolated_midpoint_witness :
    (∃ l, ([bentPipeRow] : List PipeRow)[0].geom = some l ∧
      lookupF "plus_code"
          ([⟨setField bentPipeRow.attrs "plus_code" (Val.str "6FH62G22+22"),
            some bentLine⟩] : List PipeRow)[0].attrs =
        some (Val.str (encodeOLC (interpolateNorm lenL1 l ⟨1, 2⟩).y
          (interpolateNorm lenL1 l ⟨1, 2⟩).x))) ∧
    encodeOLC (interpolateNorm lenL1 bentLine ⟨1, 2⟩).y
        (interpolateNorm lenL1 bentLine ⟨1, 2⟩).x = "6FH62G22+22" ∧
    encodeOLC (endpointAvg bentLine).y (endpointAvg bentLine).x = "6FG7G222+22" := by
  refine ⟨?_, by decide, by decide⟩
  exact (C2_pipes_interpolated_midpoint.1 lenL1 [bentPipeRow]
    [⟨setField bentPipeRow.attrs "plus_code" (Val.str "6FH62G22+22"), some bentLine⟩]
    rfl).2 0 (by decide) (by decide)

/-- C3: the aggregate orchestrator (modelled from the spec; the aggregate
endpoint is not part of this source variant) isolates failure per section:
a failing section is recorded as text under `<section>_error` with its data
key absent, a succeeding section is stored under its own key with no error
key, each section's entry depends only on its own outcome, and the response
always represents all four sections by either data or an error entry. -/
theorem C3_aggregate_isolation (userId : Option String)
    (mq pq fq stq : Except String (List Row)) :
    (∀ d, mq = Except.ok d →
      lookupF "manholes" (aggregate userId mq pq fq stq) = some (AggVal.rows d) ∧
      lookupF "manholes_error" (aggregate userId mq pq fq stq) = none) ∧
    (∀ e, mq = Except.error e →
      lookupF "manholes_error" (aggregate userId mq pq fq stq) = some (AggVal.errTxt e) ∧
      lookupF "manholes" (aggregate userId mq pq fq stq) = none) ∧
    (∀ d, pq = Except.ok d →
      lookupF "pipes" (aggregate userId mq pq fq stq) = some (AggVal.rows d) ∧
      lookupF "pipes_error" (aggregate userId mq pq fq stq) = none) ∧
    (∀ e, pq = Except.error e →
      lookupF "pipes_error" (aggregate userId mq pq fq stq) = some (AggVal.errTxt e) ∧
      lookupF "pipes" (aggregate userId mq pq fq stq) = none) ∧
    (∀ u d, userId = some u → fq = Except.ok d →
      lookupF "favorites" (aggregate userId mq pq fq stq) = some (AggVal.rows d) ∧
      lookupF "favorites_error" (aggregate userId mq pq fq stq) = none) ∧
    (∀ u e, userId = some u → fq = Except.error e →
      lookupF "favorites_error" (aggregate userId mq pq fq stq) = some (AggVal.errTxt e) ∧
      lookupF "favorites" (aggregate userId mq pq fq stq) = none) ∧
    (∀ d, stq = Except.ok d →
      lookupF "dashboard_stats" (aggregate userId mq pq fq stq) = some (AggVal.rows d) ∧
      lookupF "dashboard_stats_error" (aggregate userId mq pq fq stq) = none) ∧
    (∀ e, stq = Except.error e →
      lookupF "dashboard_stats_error" (aggregate userId mq pq fq stq) =
        some (AggVal.errTxt e) ∧
      lookupF "dashboard_stats" (aggregate userId mq pq fq stq) = none) ∧
    (∀ name ∈ (["manholes", "pipes", "favorites", "dashboard_stats"] : List String),
      (lookupF name (aggregate userId mq pq fq stq)).isSome ∨
      (lookupF (name ++ "_error") (aggregate userId mq pq fq stq)).isSome) := by
  rcases userId with _ | u <;> rcases mq with e₁ | d₁ <;> rcases pq with e₂ | d₂ <;>
    rcases fq with e₃ | d₃ <;> rcases stq with e₄ | d₄ <;>
      simp [aggregate, sectionEntry, lookupF]

/-- Witness for C3: with a user present, a failing pipes query and
succeeding other sections, the response holds `manholes` data, a textual
`pipes_error`, and no `pipes` key. -/
theorem C3_aggregate_isolation_witness :
    lookupF "manholes"
        (aggregate (some "u1") (Except.ok []) (Except.error "boom")
          (Except.ok []) (Except.ok [])) = some (AggVal.rows []) ∧
    lookupF "pipes_error"
        (aggregate (some "u1") (Except.ok []) (Except.error "boom")
          (Except.ok []) (Except.ok [])) = some (AggVal.errTxt "boom") ∧
    lookupF "pipes"
        (aggregate (some "u1") (Except.ok []) (Except.error "boom")
          (Except.ok []) (Except.ok [])) = none := by
  have h := C3_aggregate_isolation (some "u1") (Except.ok []) (Except.error "boom")
    (Except.ok []) (Except.ok [])
  exact ⟨(h.1 [] rfl).1, (h.2.2.2.1 "boom" rfl).1, (h.2.2.2.1 "boom" rfl).2⟩

/-- C4: the geometry encoder is deterministic and stateless — it is a pure
function of the point's coordinates, so two encodings of identical
latitude/longitude coordinates are identical. -/
theorem C4_encode_deterministic (p q : Pt) (hx : p.x = q.x) (hy : p.y = q.y) :
    getPlusCode (some p) = getPlusCode (some q) := by
  obtain ⟨px, py⟩ := p
  obtain ⟨qx, qy⟩ := q
  cases hx
  cases hy
  rfl

/-- Witness for C4: at the scenario point (151.2, -33.8) the encoder is
applied twice with identical coordinates and returns the same fixed code. -/
theorem C4_encode_deterministic_witness :
    getPlusCode (some samplePt) = getPlusCode (some samplePt) ∧
    getPlusCode (some samplePt) = some "4RRH6622+22" :=
  ⟨C4_encode_deterministic samplePt samplePt rfl rfl, by decide⟩

/-- C5: the result assembler is a pure transform that preserves record
count and order (record `i` of the output comes from record `i` of the
input), attaches under `plus_code` exactly the encoded location code,
leaves the geometry and every other attribute unchanged, and — whenever the
input record does not already carry a `plus_code` column, as is the case
for database rows — adds exactly one `plus_code` field, at the end. -/
theorem C5_assemble_frame (rows : List GeoRow) :
    (assemble rows).length = rows.length ∧
    ∀ (i : Nat) (h : i < rows.length) (h₂ : i < (assemble rows).length),
      (assemble rows)[i].geom = rows[i].geom ∧
      lookupF "plus_code" (assemble rows)[i].attrs =
        some (optStrVal (getPlusCode rows[i].geom)) ∧
      (∀ k : String, k ≠ "plus_code" →
        lookupF k (assemble rows)[i].attrs = lookupF k rows[i].attrs) ∧
      ((∀ p ∈ rows[i].attrs, p.1 ≠ "plus_code") →
        (assemble rows)[i].attrs =
          rows[i].attrs ++ [("plus_code", optStrVal (getPlusCode rows[i].geom))] ∧
        ((assemble rows)[i].attrs.map Prod.fst).count "plus_code" = 1) := by
  refine ⟨List.length_map _ _, ?_⟩
  intro i h h₂
  have hg : (assemble rows)[i] = assembleRow rows[i] := List.getElem_map _
  rw [hg]
  refine ⟨rfl, lookupF_setField_self _ _ _,
    fun k hk => lookupF_setField_ne _ _ _ _ hk, ?_⟩
  intro hnp
  have happ : (assembleRow rows[i]).attrs =
      rows[i].attrs ++ [("plus_code", optStrVal (getPlusCode rows[i].geom))] :=
    setField_eq_append _ _ _ hnp
  rw [happ]
  refine ⟨rfl, ?_⟩
  rw [List.map_append, List.count_append]
  have h₀ : (rows[i].attrs.map Prod.fst).count "plus_code" = 0 := by
    rw [List.count_eq_zero]
    intro hmem
    obtain ⟨p, hp, hp₁⟩ := List.mem_map.mp hmem
    exact hnp p hp hp₁
  rw [h₀]
  simp

/-- Witness for C5: the scenario record `{gid: 1, geom: Point(151.2,
-33.8), status: "OK"}` comes out with its fields intact plus one appended
`plus_code` field. -/
theorem C5_assemble_frame_witness :
    (assemble [sampleGeoRow])[0].attrs =
      sampleGeoRow.attrs ++
        [("plus_code", optStrVal (getPlusCode sampleGeoRow.geom))] ∧
    ((assemble [sampleGeoRow])[0].attrs.map Prod.fst).count "plus_code" = 1 :=
  ((C5_assemble_frame [sampleGeoRow]).2 0 (by decide) (by simp [assemble])).2.2.2
    (by decide)

/-- C6: the aggregate orchestrator (modelled from the spec) called with no
user identifier yields `favorites: []` — a valid empty list, never a
`favorites_error` entry — whatever the outcomes of all four queries. -/
theorem C6_favorites_empty_without_user (mq pq fq stq : Except String (List Row)) :
    lookupF "favorites" (aggregate none mq pq fq stq) = some (AggVal.rows []) ∧
    lookupF "favorites_error" (aggregate none mq pq fq stq) = none := by
  rcases mq with e₁ | d₁ <;> rcases pq with e₂ | d₂ <;> rcases stq with e₄ | d₄ <;>
    simp [aggregate, sectionEntry, lookupF]

/-- C7: every single-section endpoint surfaces a data-access failure as
exactly one `HTTPException(500, str(e))` carrying the error's message, and
nothing else. -/
theorem C7_single_endpoint_failure (m : String) :
    getManholes (Except.error m) = Except.error ⟨500, m⟩ ∧
    (∀ len, getPipes len (Except.error m) = Except.error ⟨500, m⟩) ∧
    (∀ t i, getMaintenance (fun _ => Except.error m) t i = Except.error ⟨500, m⟩) ∧
    (∀ lat lon radius,
      searchManholes (fun _ => Except.error m) lat lon radius = Except.error ⟨500, m⟩) ∧
    (∀ u a i, addFavorite (fun _ => Except.error m) u a i = Except.error ⟨500, m⟩) ∧
    (∀ u, getFavorites (fun _ => Except.error m) u = Except.error ⟨500, m⟩) ∧
    dashboardStats (Except.error m) = Except.error ⟨500, m⟩ ∧
    (∀ a f, uploadImage (fun _ => Except.ok ()) (fun _ => Except.error m) a f =
      Except.error ⟨500, m⟩) ∧
    (∀ body i, updateManhole (fun _ => Except.error m) body i = Except.error ⟨500, m⟩) :=
  ⟨rfl, fun _ => rfl, fun _ _ => rfl, fun _ _ _ => rfl, fun _ _ _ => rfl,
    fun _ => rfl, rfl, fun _ _ => rfl, fun _ _ => rfl⟩

/-- C8: `get_maintenance` and `add_favorite` normalise `asset_type` with
`.upper()` before the query, so the maintenance lookup cannot distinguish
an asset type from its uppercased form, and a favorite is stored with the
uppercased asset type. -/
theorem C8_asset_type_uppercased :
    (∀ (db : String × String → Except String (List Row)) (t i : String),
      getMaintenance db t i = getMaintenance db (pyUpper t) i) ∧
    (∀ (s : FavStore) (u a i : String),
      addFavoriteStore s u a i = favInsert s (u, pyUpper a, i) ∧
      addFavoriteStore s u a i = addFavoriteStore s u (pyUpper a) i) := by
  constructor
  · intro db t i
    simp [getMaintenance, pyUpper_idem]
  · intro s u a i
    exact ⟨rfl, by simp [addFavoriteStore, pyUpper_idem]⟩

/-- C9: `add_favorite` is idempotent — the `ON CONFLICT DO NOTHING` insert
leaves the store unchanged on a duplicate triple, and both the first and
the repeated call report `{"status": "success"}`. -/
theorem C9_add_favorite_idempotent (s : FavStore) (u a i : String) :
    addFavoriteStore (addFavoriteStore s u a i) u a i = addFavoriteStore s u a i ∧
    addFavorite (favExec s) u a i = Except.ok [("status", "success")] ∧
    addFavorite (favExec (addFavoriteStore s u a i)) u a i =
      Except.ok [("status", "success")] :=
  ⟨favInsert_idem _ _, rfl, rfl⟩

/-- C10: `update_manhole` overwrites exactly the `status` and `notes`
columns of the rows whose `gid` matches, with `data.get(...)` — so an
omitted body key stores null — leaves every other column and every other
row unchanged, leaves the table unchanged when nothing matches, and
responds `{"status": "success"}` regardless. -/
theorem C10_update_manhole_frame (tbl : List Manhole)
    (body : List (String × String)) (aid : Int) :
    (updateManholeStore tbl body aid).length = tbl.length ∧
    (∀ (i : Nat) (h : i < tbl.length) (h₂ : i < (updateManholeStore tbl body aid).length),
      (tbl[i].gid ≠ aid → (updateManholeStore tbl body aid)[i] = tbl[i]) ∧
      (tbl[i].gid = aid →
        (updateManholeStore tbl body aid)[i].gid = tbl[i].gid ∧
        (updateManholeStore tbl body aid)[i].rest = tbl[i].rest ∧
        (updateManholeStore tbl body aid)[i].status = pyGet body "status" ∧
        (updateManholeStore tbl body aid)[i].notes = pyGet body "notes")) ∧
    ((∀ p ∈ body, p.1 ≠ "status") → pyGet body "status" = none) ∧
    ((∀ p ∈ body, p.1 ≠ "notes") → pyGet body "notes" = none) ∧
    ((∀ r ∈ tbl, r.gid ≠ aid) → updateManholeStore tbl body aid = tbl) ∧
    updateManhole (fun _ => Except.ok ()) body aid =
      Except.ok [("status", "success")] := by
  refine ⟨List.length_map _ _, ?_,
    fun hnp => lookupF_none_of_not_mem body "status" hnp,
    fun hnp => lookupF_none_of_not_mem body "notes" hnp, ?_, rfl⟩
  · intro i h h₂
    have hg : (updateManholeStore tbl body aid)[i] =
        (fun r => if r.gid = aid then
          { r with status := pyGet body "status", notes := pyGet body "notes" }
          else r) tbl[i] := List.getElem_map _
    rw [hg]
    constructor
    · intro hne
      simp [hne]
    · intro heq
      simp [heq]
  · intro hall
    unfold updateManholeStore sqlUpdateManhole
    have h₁ : tbl.map (fun r => if r.gid = aid then
        { r with status := pyGet body "status", notes := pyGet body "notes" }
        else r) = tbl.map id :=
      List.map_congr_left (fun r hr => by simp [hall r hr])
    rw [h₁, List.map_id]

/-- Witness for C10: updating gid 1 with a body that omits `status`
overwrites row 0's status with null and its notes with the supplied text,
and leaves the non-matching row 1 entirely unchanged. -/
theorem C10_update_manhole_frame_witness :
    (updateManholeStore
        [⟨1, some "OK", none, []⟩, ⟨2, some "Bad", some "x", []⟩]
        [("notes", "fixed")] 1)[0].status = none ∧
    (updateManholeStore
        [⟨1, some "OK", none, []⟩, ⟨2, some "Bad", some "x", []⟩]
        [("notes", "fixed")] 1)[0].notes = some "fixed" ∧
    (updateManholeStore
        [⟨1, some "OK", none, []⟩, ⟨2, some "Bad", some "x", []⟩]
        [("notes", "fixed")] 1)[1] = ⟨2, some "Bad", some "x", []⟩ := by
  have h := C10_update_manhole_frame
    [⟨1, some "OK", none, []⟩, ⟨2, some "Bad", some "x", []⟩] [("notes", "fixed")] 1
  have h₀ := (h.2.1 0 (by decide) (by decide)).2 (by decide)
  have h₁ := (h.2.1 1 (by decide) (by decide)).1 (by decide)
  exact ⟨h₀.2.2.1, h₀.2.2.2, h₁⟩

end Wastewater
